import Mathlib

/-!
Verification of the demclean inclusion-decision engine.

This file shallowly embeds the core of the repository (src/ds.rs,
src/prec.rs, src/util.rs): the two event-extraction pipelines, the
inclusion policy of each collector, and the two collectors themselves.
File-system effects (path existence, file reads, directory listings) are
modelled by an explicit environment of oracles; paths are lists of
components.  The PREC shared-log pattern matcher for whole log lines is
modelled as an oracle producing the list of capture pairs, while the two
patterns the claims reason about concretely (the sidecar event-name
pattern and the killstreak pattern) are embedded as executable scanners.
-/

/-- Models Rust `char::is_whitespace` (the Unicode White_Space property),
used both by `String::retain` in the sidecar policy and by the regex
class `\s`. -/
def rustIsWhitespace (c : Char) : Bool :=
  c = '\t' || c = '\n' || c.toNat = 0x0B || c.toNat = 0x0C || c = '\r' || c = ' ' ||
  c.toNat = 0x85 || c.toNat = 0xA0 || c.toNat = 0x1680 ||
  (0x2000 ≤ c.toNat && c.toNat ≤ 0x200A) ||
  c.toNat = 0x2028 || c.toNat = 0x2029 || c.toNat = 0x202F || c.toNat = 0x205F ||
  c.toNat = 0x3000

/-- ASCII lower-casing of one character, as in Rust
`u8::to_ascii_lowercase`. -/
def asciiLower (c : Char) : Char :=
  if 'A' ≤ c && c ≤ 'Z' then Char.ofNat (c.toNat + 32) else c

/-- Models Rust `str::eq_ignore_ascii_case`. -/
def eqIgnoreAsciiCase (a b : List Char) : Bool :=
  a.map asciiLower == b.map asciiLower

/-- Models Rust `str::to_lowercase` (the demo names at issue are ASCII;
lower-casing beyond ASCII is the identity here). -/
def lowercase (s : String) : String :=
  String.mk (s.data.map asciiLower)

/-- The whitespace removal performed by `content.retain(|c| !c.is_whitespace())`
in `ds::should_include_demo`. -/
def stripWs (s : String) : List Char :=
  s.data.filter (fun c => !(rustIsWhitespace c))

/-- A file-system path, as a list of components.  `dir ++ [name]` models
`Path::join`. -/
abbrev DPath := List String

/-- Models Rust `Path::parent`: `none` for the empty path, otherwise the
path without its last component. -/
def parentDir (p : DPath) : Option DPath :=
  if p = [] then none else some p.dropLast

/-- Splits a file name at its last dot: `some (stem, ext)` when a dot is
present, `none` otherwise. -/
def splitAtLastDot : List Char → Option (List Char × List Char)
  | [] => none
  | c :: rest =>
    match splitAtLastDot rest with
    | some pr => some (c :: pr.1, pr.2)
    | none => if c = '.' then some ([], rest) else none

/-- Models Rust `Path::extension` for a single-component file name:
the portion after the final dot, and `none` when there is no dot or when
the only dot is the leading one. -/
def fileExtension (name : String) : Option String :=
  match splitAtLastDot name.data with
  | some pr => if pr.1 = [] then none else some (String.mk pr.2)
  | none => none

/-- Models Rust `Path::with_extension` for a single-component file name:
the file stem with the new extension appended. -/
def withExtension (name : String) (ext : String) : String :=
  match splitAtLastDot name.data with
  | some pr =>
    if pr.1 = [] then String.mk (name.data ++ ('.' :: ext.data))
    else String.mk (pr.1 ++ ('.' :: ext.data))
  | none => String.mk (name.data ++ ('.' :: ext.data))

/-- The json sidecar extension used by `entry_path.with_extension("json")`. -/
def jsonExt : String := "json"

/-- The reserved sidecar label compared against by the sidecar policy. -/
def killstreakLit : String := "killstreak"

namespace util

/-- Embeds `util::is_demo`: the extension is exactly `dem`. -/
def is_demo (ext : Option String) : Bool :=
  match ext with
  | some s => s == "dem"
  | none => false

end util

/-- Embeds the `IncludedDemo` record (named `IncludedDemo` in the repo,
fields as in the source). -/
structure IncludedDemo where
  inclusion_reason : String
  demo_path : DPath
  events_json_path : Option DPath
  id : String
deriving DecidableEq

/-- The file-system and regex-engine oracles a collector run interacts
with.  `precCaptures` stands for `prec::EVENT_EXTRACT_RE.captures_iter`
(the external regex engine applied to the shared log), producing the
ordered list of `(event_type, demo_file_name)` capture pairs. -/
structure Env where
  pathExists : DPath → Bool
  readFile : DPath → Option String
  readDir : DPath → Option (List String)
  precCaptures : String → List (String × String)

namespace ds

/-- Embeds `ds::EMPTY_EVENTS`. -/
def EMPTY_EVENTS : String := "\x7b\"events\":[]\x7d"

/-- The literal prefix matched by `ds::EVENT_EXTRACT_RE`
(the pattern is applied only to whitespace-stripped text, so its optional
whitespace atom is vacuous and the prefix is this fixed string). -/
def name_key : List Char := ['\"', 'n', 'a', 'm', 'e', '\"', ':', '\"']

/-- Finds the first occurrence of the lazy-capture terminator of
`ds::EVENT_EXTRACT_RE` (a double quote followed by a comma), returning
the text before it and the text after it. -/
def findTerm : List Char → Option (List Char × List Char)
  | [] => none
  | '\"' :: ',' :: rest => some ([], rest)
  | c :: rest =>
    match findTerm rest with
    | some pr => some (c :: pr.1, pr.2)
    | none => none

/-- Embeds `ds::EVENT_EXTRACT_RE.captures_iter` on whitespace-free text:
successive non-overlapping leftmost matches of the event-name pattern,
each capture running lazily up to the first terminator.  The fuel is the
remaining text length; every step consumes at least one character, so
starting fuel equal to the text length is sufficient. -/
def event_captures_aux : Nat → List Char → List (List Char)
  | 0, _ => []
  | _ + 1, [] => []
  | fuel + 1, c :: rest =>
    if name_key.isPrefixOf (c :: rest) then
      match findTerm ((c :: rest).drop 8) with
      | some pr => pr.1 :: event_captures_aux fuel pr.2
      | none => event_captures_aux fuel rest
    else event_captures_aux fuel rest

/-- The capture list of `ds::EVENT_EXTRACT_RE` on whitespace-free text. -/
def event_captures (s : List Char) : List (List Char) :=
  event_captures_aux s.length s

/-- Embeds `ds::should_include_demo`: whitespace is removed, the
empty-events literal short-circuits to inclusion, and under the
killstreak-only flag every captured event name must equal
`killstreak` ASCII-case-insensitively. -/
def should_include_demo (content : String) (filter_ks_only : Bool) : Bool × String :=
  if stripWs content = EMPTY_EVENTS.data then (true, "no events")
  else if filter_ks_only then
    if (event_captures (stripWs content)).all
        (fun l => eqIgnoreAsciiCase l killstreakLit.data) then
      (true, "has only killstreak events")
    else (false, "has custom bookmark")
  else (false, "has events")

end ds

namespace ds

/-- Embeds the per-entry loop body of `ds::collect_ds_demos` over the
directory entries (file names, in listing order): produces the emitted
diagnostics and the appended `IncludedDemo` records. -/
def process (env : Env) (dir : DPath) (flag : Bool) : List String → List String × List IncludedDemo
  | [] => ([], [])
  | e :: rest =>
    if util.is_demo (fileExtension e) then
      if env.pathExists (dir ++ [withExtension e jsonExt]) then
        match env.readFile (dir ++ [withExtension e jsonExt]) with
        | some content =>
          if (should_include_demo content flag).1 then
            ((process env dir flag rest).1,
             { inclusion_reason := (should_include_demo content flag).2,
               demo_path := dir ++ [e],
               events_json_path := some (dir ++ [withExtension e jsonExt]),
               id := "demosupport" } :: (process env dir flag rest).2)
          else
            (("Skipping " ++ e ++ ": " ++ (should_include_demo content flag).2) ::
               (process env dir flag rest).1,
             (process env dir flag rest).2)
        | none =>
          ("Failed to read events json file" ::
             ("Skipping " ++ e ++ ": failed to read json") ::
               (process env dir flag rest).1,
           (process env dir flag rest).2)
      else
        (("Cannot find json events file for demo " ++ e) :: (process env dir flag rest).1,
         (process env dir flag rest).2)
    else process env dir flag rest

/-- Embeds `ds::collect_ds_demos`: a directory-read failure propagates as
an error; otherwise the per-entry loop runs over the listing and the call
returns success. -/
def collect_ds_demos (env : Env) (demos_dir : DPath) (include_ks_only : Bool) :
    Except String (List String × List IncludedDemo) :=
  match env.readDir demos_dir with
  | none => Except.error "failed to read demos directory"
  | some entries => Except.ok (process env demos_dir include_ks_only entries)

end ds

namespace prec

/-- Embeds `prec::PREC_KS_FILE`. -/
def PREC_KS_FILE : String := "KillStreaks.txt"

/-- Whether `prec::KS_RE` matches at the head of the text: the literal
`Kill`, one whitespace character, the literal `Streak:`, then at least one
digit. -/
def ks_match_at : List Char → Bool
  | 'K' :: 'i' :: 'l' :: 'l' :: w :: 'S' :: 't' :: 'r' :: 'e' :: 'a' :: 'k' :: ':' :: d :: _ =>
    rustIsWhitespace w && d.isDigit
  | _ => false

/-- Embeds `prec::KS_RE.is_match` on character lists: the pattern matches
somewhere in the text. -/
def ks_is_match_chars : List Char → Bool
  | [] => false
  | c :: rest => ks_match_at (c :: rest) || ks_is_match_chars rest

/-- Embeds `prec::KS_RE.is_match`. -/
def ks_is_match (s : String) : Bool := ks_is_match_chars s.data

/-- Embeds `prec::find_prec_ks_file`: the chosen directory is searched
first, then its parent; the first existing candidate wins. -/
def find_prec_ks_file (pathExists : DPath → Bool) (demos_dir : DPath) : Option DPath :=
  (List.filterMap id
    [some (demos_dir ++ [PREC_KS_FILE]),
     (parentDir demos_dir).map (fun par => par ++ [PREC_KS_FILE])]).find? pathExists

/-- Embeds `prec::should_include_demo`: an absent entry is included as
having no events; under the killstreak-only flag every event in the set
must match the killstreak pattern. -/
def should_include_demo (events : Option (List String)) (filter_ks_only : Bool) :
    Bool × String :=
  match events with
  | none => (true, "no events")
  | some evs =>
    if filter_ks_only then
      if evs.all (fun e => ks_is_match e) then (true, "has only killstreak events")
      else (false, "has custom bookmark")
    else (false, "has events")

/-- The demo-to-events mapping built by the bulk-extraction loop,
modelling the `HashMap<PathBuf, HashSet<&str>>`. -/
abbrev EventMap := List (DPath × List String)

/-- Models `HashMap::get` on the event map. -/
def lookupEvents : EventMap → DPath → Option (List String)
  | [], _ => none
  | (k0, evs) :: rest, k => if k0 = k then some evs else lookupEvents rest k

/-- Models `event_map.entry(k).or_insert(HashSet::new())` followed by
`events.insert(v)`: the value set of `k` gains `v` (sets keep one copy). -/
def insertEvent : EventMap → DPath → String → EventMap
  | [], k, v => [(k, [v])]
  | (k0, evs) :: rest, k, v =>
    if k0 = k then (k0, if v ∈ evs then evs else evs ++ [v]) :: rest
    else (k0, evs) :: insertEvent rest k v

/-- Embeds the bulk-extraction loop of `prec::collect_prec_demos`
(lines 74-87): each capture pair's demo name is lower-cased, the demo
extension appended, and the event recorded only when the file exists. -/
def build_event_map (ex : DPath → Bool) (dir : DPath) :
    List (String × String) → EventMap → EventMap
  | [], m => m
  | (et, name) :: rest, m =>
    if ex (dir ++ [lowercase name ++ ".dem"]) then
      build_event_map ex dir rest (insertEvent m (dir ++ [lowercase name ++ ".dem"]) et)
    else build_event_map ex dir rest m

/-- The event map extracted from the full capture list. -/
def buildEventMap (ex : DPath → Bool) (dir : DPath) (caps : List (String × String)) :
    EventMap :=
  build_event_map ex dir caps []

/-- Embeds the directory-walk loop of `prec::collect_prec_demos`: each
demo entry is judged by the policy on its entry in the event map. -/
def process (em : EventMap) (dir : DPath) (flag : Bool) :
    List String → List String × List IncludedDemo
  | [] => ([], [])
  | e :: rest =>
    if util.is_demo (fileExtension e) then
      if (should_include_demo (lookupEvents em (dir ++ [e])) flag).1 then
        ((process em dir flag rest).1,
         { inclusion_reason := (should_include_demo (lookupEvents em (dir ++ [e])) flag).2,
           demo_path := dir ++ [e],
           events_json_path := none, id := "prec" } :: (process em dir flag rest).2)
      else
        (("Skipping " ++ e ++ ": " ++
            (should_include_demo (lookupEvents em (dir ++ [e])) flag).2) ::
           (process em dir flag rest).1,
         (process em dir flag rest).2)
    else process em dir flag rest

/-- Embeds `prec::collect_prec_demos` after the shared log has been
resolved (lines 67-112): the walked directory is the log file's
containing directory. -/
def collect_after (env : Env) (ks_file : DPath) (flag : Bool) :
    Except String (List String × List IncludedDemo) :=
  let demos_dir := (parentDir ks_file).getD []
  match env.readFile ks_file with
  | none => Except.error "failed to read event file"
  | some content =>
    let em := buildEventMap env.pathExists demos_dir (env.precCaptures content)
    match env.readDir demos_dir with
    | none => Except.error "failed to read demos directory"
    | some entries => Except.ok (process em demos_dir flag entries)

/-- Embeds `prec::collect_prec_demos`: a missing shared log emits the
warning and returns success with no records; otherwise collection
proceeds from the resolved log. -/
def collect_prec_demos (env : Env) (demos_dir : DPath) (include_ks_only : Bool) :
    Except String (List String × List IncludedDemo) :=
  match find_prec_ks_file env.pathExists demos_dir with
  | none => Except.ok (["Failed to find PREC event log file"], [])
  | some ks_file => collect_after env ks_file include_ks_only

end prec

/-! Concrete fixtures used to exercise the theorems on sample inputs. -/

/-- A sidecar whose whitespace-stripped content is the empty-events
literal. -/
def wsEmptyEventsSample : String := " \x7b \"events\" : [ ] \x7d "

/-- A sidecar whose only extracted event name is a killstreak. -/
def ksOnlySample : String := "\x7b\"events\":[\x7b\"name\": \"killstreak\",\x7d]\x7d"

/-- A non-empty sidecar that is not the empty-events literal. -/
def plainSample : String := "x"

/-- The empty sidecar content. -/
def emptySample : String := ""

/-- A PREC event label matching the killstreak pattern. -/
def ksEventSample : String := "Kill Streak:3"

/-- A PREC-log demo base name as captured (upper case in the log). -/
def ksNameSample : String := "X"

/-- A capture list of the PREC bulk extraction with one killstreak pair. -/
def ksCapsSample : List (String × String) := [(ksEventSample, ksNameSample)]

/-- A demos directory used in fixtures. -/
def dirSample : DPath := ["d"]

/-- The demo path the fixture capture resolves to. -/
def ksPathSample : DPath := ["d", "x.dem"]

/-- An existence oracle under which only the fixture demo path exists. -/
def exSample : DPath → Bool := fun q => q == ksPathSample

/-- A demo entry name used in fixtures. -/
def demSample : String := "a.dem"

/-- A second demo entry name used in fixtures. -/
def demSample2 : String := "b.dem"

/-- An environment with one demo whose sidecar holds the empty-events
literal. -/
def envOkSample : Env :=
  { pathExists := fun _ => true
    readFile := fun _ => some ds.EMPTY_EVENTS
    readDir := fun _ => some [demSample]
    precCaptures := fun _ => [] }

/-- An environment in which every sidecar read fails. -/
def envReadFailSample : Env :=
  { pathExists := fun _ => true
    readFile := fun _ => none
    readDir := fun _ => some ([] : List String)
    precCaptures := fun _ => [] }

/-- An environment in which no path exists. -/
def envNothingSample : Env :=
  { pathExists := fun _ => false
    readFile := fun _ => none
    readDir := fun _ => none
    precCaptures := fun _ => [] }

/-- A chosen directory with a parent. -/
def chosenSample : DPath := ["a", "b"]

/-- The parent of `chosenSample`. -/
def parentSample : DPath := ["a"]

/-- An environment in which the PREC shared log exists only in the
parent of `chosenSample`. -/
def envParentLogSample : Env :=
  { pathExists := fun q => q == parentSample ++ [prec.PREC_KS_FILE]
    readFile := fun _ => none
    readDir := fun _ => none
    precCaptures := fun _ => [] }

namespace prec

theorem lookup_insertEvent_self (m : EventMap) (k : DPath) (v : String) :
    lookupEvents (insertEvent m k v) k =
      some (match lookupEvents m k with
            | none => [v]
            | some evs => if v ∈ evs then evs else evs ++ [v]) := by
  induction m with
  | nil => simp [insertEvent, lookupEvents]
  | cons kv rest ih =>
    obtain ⟨k0, evs⟩ := kv
    by_cases h : k0 = k
    · subst h
      simp [insertEvent, lookupEvents]
    · simp [insertEvent, lookupEvents, h, ih]

theorem lookup_insertEvent_ne (m : EventMap) (k p : DPath) (v : String) (h : p ≠ k) :
    lookupEvents (insertEvent m k v) p = lookupEvents m p := by
  have hk : ¬(k = p) := fun hkp => h hkp.symm
  induction m with
  | nil => simp [insertEvent, lookupEvents, hk]
  | cons kv rest ih =>
    obtain ⟨k0, evs⟩ := kv
    by_cases h0 : k0 = k
    · subst h0
      simp [insertEvent, lookupEvents, hk]
    · by_cases h1 : k0 = p <;> simp [insertEvent, lookupEvents, h0, h1, ih, h]

theorem insertEvent_self_mem (m : EventMap) (k : DPath) (v : String) :
    ∃ evs, lookupEvents (insertEvent m k v) k = some evs ∧ v ∈ evs := by
  rw [lookup_insertEvent_self]
  cases hk : lookupEvents m k with
  | none => exact ⟨[v], rfl, by simp⟩
  | some evs0 =>
    by_cases hv : v ∈ evs0
    · exact ⟨evs0, by simp [hv], hv⟩
    · exact ⟨evs0 ++ [v], by simp [hv], by simp⟩

theorem insertEvent_preserves (m : EventMap) (k p : DPath) (v x : String)
    (evs0 : List String) (h : lookupEvents m p = some evs0) (hx : x ∈ evs0) :
    ∃ evs, lookupEvents (insertEvent m k v) p = some evs ∧ x ∈ evs := by
  by_cases hp : p = k
  · subst hp
    rw [lookup_insertEvent_self, h]
    by_cases hv : v ∈ evs0
    · exact ⟨evs0, by simp [hv], hx⟩
    · exact ⟨evs0 ++ [v], by simp [hv], List.mem_append_left _ hx⟩
  · exact ⟨evs0, by rw [lookup_insertEvent_ne m k p v hp]; exact h, hx⟩

theorem insertEvent_nonempty (m : EventMap) (k : DPath) (v : String)
    (hm : ∀ p evs, lookupEvents m p = some evs → evs ≠ []) :
    ∀ p evs, lookupEvents (insertEvent m k v) p = some evs → evs ≠ [] := by
  intro p evs h
  by_cases hp : p = k
  · rw [hp, lookup_insertEvent_self] at h
    cases hk : lookupEvents m k with
    | none =>
      rw [hk] at h
      simp only [Option.some.injEq] at h
      simp [← h]
    | some evs0 =>
      rw [hk] at h
      simp only [Option.some.injEq] at h
      subst h
      by_cases hv : v ∈ evs0
      · simpa [hv] using hm k evs0 hk
      · simp [hv]
  · rw [lookup_insertEvent_ne m k p v hp] at h
    exact hm p evs h

theorem build_preserves_mem (ex : DPath → Bool) (dir : DPath)
    (caps : List (String × String)) :
    ∀ m p x evs0, lookupEvents m p = some evs0 → x ∈ evs0 →
      ∃ evs, lookupEvents (build_event_map ex dir caps m) p = some evs ∧ x ∈ evs := by
  induction caps with
  | nil =>
    intro m p x evs0 h hx
    exact ⟨evs0, h, hx⟩
  | cons c rest ih =>
    obtain ⟨et, name⟩ := c
    intro m p x evs0 h hx
    by_cases hex : ex (dir ++ [lowercase name ++ ".dem"]) = true
    · simp only [build_event_map, hex, if_true]
      obtain ⟨evs1, h1, hx1⟩ :=
        insertEvent_preserves m (dir ++ [lowercase name ++ ".dem"]) p et x evs0 h hx
      exact ih _ p x evs1 h1 hx1
    · simp only [build_event_map, hex, if_false]
      exact ih m p x evs0 h hx

theorem build_adds (ex : DPath → Bool) (dir : DPath) (caps : List (String × String)) :
    ∀ m et name, (et, name) ∈ caps → ex (dir ++ [lowercase name ++ ".dem"]) = true →
      ∃ evs, lookupEvents (build_event_map ex dir caps m)
          (dir ++ [lowercase name ++ ".dem"]) = some evs ∧ et ∈ evs := by
  induction caps with
  | nil => simp
  | cons c rest ih =>
    obtain ⟨et0, name0⟩ := c
    intro m et name hmem hex
    rcases List.mem_cons.mp hmem with heq | htail
    · injection heq with h1 h2
      subst h1
      subst h2
      simp only [build_event_map, hex, if_true]
      obtain ⟨evs1, h1, hv1⟩ :=
        insertEvent_self_mem m (dir ++ [lowercase name ++ ".dem"]) et
      exact build_preserves_mem ex dir rest _ _ et evs1 h1 hv1
    · by_cases hex0 : ex (dir ++ [lowercase name0 ++ ".dem"]) = true
      · simp only [build_event_map, hex0, if_true]
        exact ih _ et name htail hex
      · simp only [build_event_map, hex0, if_false]
        exact ih _ et name htail hex

theorem build_keys (ex : DPath → Bool) (dir : DPath) (caps : List (String × String)) :
    ∀ m p, lookupEvents (build_event_map ex dir caps m) p ≠ none →
      lookupEvents m p ≠ none ∨ ex p = true := by
  induction caps with
  | nil =>
    intro m p h
    exact Or.inl h
  | cons c rest ih =>
    obtain ⟨et, name⟩ := c
    intro m p h
    by_cases hex : ex (dir ++ [lowercase name ++ ".dem"]) = true
    · simp only [build_event_map, hex, if_true] at h
      rcases ih _ p h with h1 | h1
      · by_cases hp : p = dir ++ [lowercase name ++ ".dem"]
        · rw [hp]
          exact Or.inr hex
        · rw [lookup_insertEvent_ne m _ p et hp] at h1
          exact Or.inl h1
      · exact Or.inr h1
    · simp only [build_event_map, hex, if_false] at h
      exact ih m p h

theorem build_values_nonempty (ex : DPath → Bool) (dir : DPath)
    (caps : List (String × String)) :
    ∀ m, (∀ p evs, lookupEvents m p = some evs → evs ≠ []) →
      ∀ p evs, lookupEvents (build_event_map ex dir caps m) p = some evs → evs ≠ [] := by
  induction caps with
  | nil =>
    intro m hm p evs h
    exact hm p evs h
  | cons c rest ih =>
    obtain ⟨et, name⟩ := c
    intro m hm
    by_cases hex : ex (dir ++ [lowercase name ++ ".dem"]) = true
    · simp only [build_event_map, hex, if_true]
      exact ih _ (insertEvent_nonempty m _ et hm)
    · simp only [build_event_map, hex, if_false]
      exact ih m hm

end prec

/-- Sanity check mirroring the killstreak-pattern comment in prec.rs. -/
theorem ks_is_match_sample : prec.ks_is_match "Kill Streak:5" = true := by decide

/-- The killstreak pattern requires at least one digit. -/
theorem ks_is_match_needs_digit : prec.ks_is_match "Kill Streak:" = false := by decide

/-- The killstreak pattern is searched for anywhere in the label. -/
theorem ks_is_match_inner : prec.ks_is_match "a Kill Streak:12 b" = true := by decide

/-- A custom bookmark label does not match the killstreak pattern. -/
theorem ks_is_match_bookmark : prec.ks_is_match "Bookmark" = false := by decide

/-- Sanity check mirroring the event-name-pattern comment in ds.rs. -/
theorem event_captures_sample :
    ds.event_captures (stripWs "\x7b\"events\":[\x7b\"name\": \"Bookmark\",\x7d]\x7d") =
      [['B', 'o', 'o', 'k', 'm', 'a', 'r', 'k']] := by decide

/-- The sidecar comparison against `killstreak` is ASCII-case-insensitive. -/
theorem should_include_demo_upper_ks :
    ds.should_include_demo "\x7b\"events\":[\x7b\"name\": \"KILLSTREAK\",\x7d]\x7d" true =
      (true, "has only killstreak events") := by decide

/-- A bookmark event excludes the demo under the killstreak-only flag. -/
theorem should_include_demo_bookmark :
    ds.should_include_demo "\x7b\"events\":[\x7b\"name\": \"Bookmark\",\x7d]\x7d" true =
      (false, "has custom bookmark") := by decide

theorem ds_process_records (env : Env) (dir : DPath) (flag : Bool) :
    ∀ entries, ∀ r ∈ (ds.process env dir flag entries).2,
      r.id = "demosupport" ∧ ∃ name, r.demo_path = dir ++ [name] ∧
        r.events_json_path = some (dir ++ [withExtension name jsonExt]) := by
  intro entries
  induction entries with
  | nil =>
    intro r hr
    simp [ds.process] at hr
  | cons e rest ih =>
    intro r hr
    by_cases h1 : util.is_demo (fileExtension e) = true
    · by_cases h2 : env.pathExists (dir ++ [withExtension e jsonExt]) = true
      · cases h3 : env.readFile (dir ++ [withExtension e jsonExt]) with
        | none =>
          simp only [ds.process, h1, h2, h3, if_true] at hr
          exact ih r hr
        | some content =>
          by_cases h4 : (ds.should_include_demo content flag).1 = true
          · simp only [ds.process, h1, h2, h3, h4, if_true] at hr
            rcases List.mem_cons.mp hr with heq | htail
            · subst heq
              exact ⟨rfl, e, rfl, rfl⟩
            · exact ih r htail
          · simp only [ds.process, h1, h2, h3, h4, if_true, if_false,
              Bool.not_eq_true] at hr
            simp only [Bool.not_eq_true] at h4
            simp only [h4, if_false, Bool.false_eq_true] at hr
            exact ih r hr
      · simp only [ds.process, h1, h2, if_true, if_false, Bool.not_eq_true] at hr
        simp only [Bool.not_eq_true] at h2
        simp only [h2, if_false, Bool.false_eq_true] at hr
        exact ih r hr
    · simp only [ds.process, h1, Bool.not_eq_true] at hr
      simp only [Bool.not_eq_true] at h1
      simp only [h1, if_false, Bool.false_eq_true] at hr
      exact ih r hr

theorem prec_process_records (em : prec.EventMap) (dir : DPath) (flag : Bool) :
    ∀ entries, ∀ r ∈ (prec.process em dir flag entries).2,
      r.events_json_path = none ∧ r.id = "prec" := by
  intro entries
  induction entries with
  | nil =>
    intro r hr
    simp [prec.process] at hr
  | cons e rest ih =>
    intro r hr
    by_cases h1 : util.is_demo (fileExtension e) = true
    · by_cases h4 : (prec.should_include_demo (prec.lookupEvents em (dir ++ [e])) flag).1 = true
      · simp only [prec.process, h1, h4, if_true] at hr
        rcases List.mem_cons.mp hr with heq | htail
        · subst heq
          exact ⟨rfl, rfl⟩
        · exact ih r htail
      · simp only [Bool.not_eq_true] at h4
        simp only [prec.process, h1, h4, if_true, if_false, Bool.false_eq_true] at hr
        exact ih r hr
    · simp only [Bool.not_eq_true] at h1
      simp only [prec.process, h1, if_false, Bool.false_eq_true] at hr
      exact ih r hr

/-- C1. Inclusion rule 1: a demo with no extracted event labels — a
sidecar that whitespace-strips to the empty-events literal for the
sidecar variant, or a demo no shared-log entry references (absent map
entry) for the shared-log variant — is included with the no-events
reason under either value of the filter flag; the shared-log extraction
never produces an empty label set, so absent is the only no-label case
there. -/
theorem c1_no_labels_included (content : String) (flag : Bool) (ex : DPath → Bool)
    (dir : DPath) (caps : List (String × String))
    (h : stripWs content = ds.EMPTY_EVENTS.data) :
    ds.should_include_demo content flag = (true, "no events") ∧
    prec.should_include_demo none flag = (true, "no events") ∧
    (∀ p evs, prec.lookupEvents (prec.buildEventMap ex dir caps) p = some evs →
      evs ≠ []) := by
  refine ⟨?_, rfl, ?_⟩
  · unfold ds.should_include_demo
    rw [if_pos h]
  · intro p evs h0
    refine prec.build_values_nonempty ex dir caps [] ?_ p evs h0
    intro q evs0 hq
    simp [prec.lookupEvents] at hq

theorem c1_no_labels_included_witness :
    ds.should_include_demo ds.EMPTY_EVENTS true = (true, "no events") ∧
    prec.should_include_demo none true = (true, "no events") := by
  have h := c1_no_labels_included ds.EMPTY_EVENTS true exSample dirSample ksCapsSample
    (by decide)
  exact ⟨h.1, h.2.1⟩

/-- C2. Inclusion rule 3: with a non-empty label set and the
killstreak-only flag on, the sidecar policy includes with the
only-killstreaks reason exactly when every captured label equals
`killstreak` ASCII-case-insensitively, and the shared-log policy does so
exactly when every label matches the killstreak pattern; otherwise the
demo is excluded with the custom-bookmark reason. -/
theorem c2_killstreak_filter (content : String) (evs : List String)
    (h1 : ds.event_captures (stripWs content) ≠ [])
    (h2 : evs ≠ []) :
    ds.should_include_demo content true =
      (if (ds.event_captures (stripWs content)).all
          (fun l => eqIgnoreAsciiCase l killstreakLit.data)
       then (true, "has only killstreak events")
       else (false, "has custom bookmark")) ∧
    prec.should_include_demo (some evs) true =
      (if evs.all (fun e => prec.ks_is_match e)
       then (true, "has only killstreak events")
       else (false, "has custom bookmark")) := by
  constructor
  · have hne : stripWs content ≠ ds.EMPTY_EVENTS.data := by
      intro he
      apply h1
      rw [he]
      decide
    unfold ds.should_include_demo
    rw [if_neg hne, if_pos rfl]
  · rfl

theorem c2_killstreak_filter_witness :
    ds.should_include_demo ksOnlySample true =
      (if (ds.event_captures (stripWs ksOnlySample)).all
          (fun l => eqIgnoreAsciiCase l killstreakLit.data)
       then (true, "has only killstreak events")
       else (false, "has custom bookmark")) ∧
    prec.should_include_demo (some [ksEventSample]) true =
      (if [ksEventSample].all (fun e => prec.ks_is_match e)
       then (true, "has only killstreak events")
       else (false, "has custom bookmark")) :=
  c2_killstreak_filter ksOnlySample [ksEventSample] (by decide) (by decide)

/-- C3, as stated, is false on the code: the empty-events literal is a
non-empty content string, yet under `filter_killstreak_only = false` the
sidecar policy includes it with the no-events reason instead of
excluding it with the has-events reason. -/
theorem c3_counterexample :
    ds.EMPTY_EVENTS ≠ "" ∧
    ds.should_include_demo ds.EMPTY_EVENTS false = (true, "no events") ∧
    ds.should_include_demo ds.EMPTY_EVENTS false ≠ (false, "has events") := by
  refine ⟨by decide, by decide, by decide⟩

/-- C3 amended: for every non-empty sidecar content whose
whitespace-stripped form is not the empty-events literal, the sidecar
policy under `filter_killstreak_only = false` excludes the demo with the
has-events reason. -/
theorem c3_amended_has_events (content : String) (h1 : content ≠ "")
    (h2 : stripWs content ≠ ds.EMPTY_EVENTS.data) :
    ds.should_include_demo content false = (false, "has events") := by
  unfold ds.should_include_demo
  rw [if_neg h2]
  rfl

theorem c3_amended_has_events_witness :
    ds.should_include_demo plainSample false = (false, "has events") :=
  c3_amended_has_events plainSample (by decide) (by decide)

/-- C4. Any sidecar content equal to the empty-events literal after
whitespace removal is included with the no-events reason under both
values of the filter flag. -/
theorem c4_empty_events_included (content : String) (flag : Bool)
    (h : stripWs content = ds.EMPTY_EVENTS.data) :
    ds.should_include_demo content flag = (true, "no events") := by
  unfold ds.should_include_demo
  rw [if_pos h]

theorem c4_empty_events_included_witness :
    ds.should_include_demo wsEmptyEventsSample false = (true, "no events") ∧
    ds.should_include_demo wsEmptyEventsSample true = (true, "no events") :=
  ⟨c4_empty_events_included wsEmptyEventsSample false (by decide),
   c4_empty_events_included wsEmptyEventsSample true (by decide)⟩

/-- C5. Shared-log bulk extraction: for every capture pair, the demo
name is lower-cased and the demo extension appended to form a path in
the resolved directory; when a file exists at that path, the captured
event description is a member of that demo's label set in the resulting
mapping, and every key of the resulting mapping is an existing file, so
a reference to a nonexistent demo never appears. -/
theorem c5_bulk_extraction (ex : DPath → Bool) (dir : DPath)
    (caps : List (String × String)) (et name : String)
    (hmem : (et, name) ∈ caps) :
    (ex (dir ++ [lowercase name ++ ".dem"]) = true →
      ∃ evs, prec.lookupEvents (prec.buildEventMap ex dir caps)
          (dir ++ [lowercase name ++ ".dem"]) = some evs ∧ et ∈ evs) ∧
    (∀ p, prec.lookupEvents (prec.buildEventMap ex dir caps) p ≠ none →
      ex p = true) := by
  constructor
  · intro hex
    exact prec.build_adds ex dir caps [] et name hmem hex
  · intro p h
    rcases prec.build_keys ex dir caps [] p h with h1 | h1
    · simp [prec.lookupEvents] at h1
    · exact h1

theorem c5_bulk_extraction_witness :
    (∃ evs, prec.lookupEvents (prec.buildEventMap exSample dirSample ksCapsSample)
        (dirSample ++ [lowercase ksNameSample ++ ".dem"]) = some evs ∧
      ksEventSample ∈ evs) ∧
    exSample ksPathSample = true := by
  have h := c5_bulk_extraction exSample dirSample ksCapsSample ksEventSample
    ksNameSample (by decide)
  exact ⟨h.1 (by decide), h.2 ksPathSample (by decide)⟩

/-- C6. When the shared log is missing from the chosen directory but
present in its parent, the resolver returns the parent's log path, the
collector proceeds from that log, and the directory it walks — the log
file's containing directory — is the parent, which differs from the
originally chosen directory. -/
theorem c6_parent_log_walk_root (env : Env) (d p : DPath) (flag : Bool)
    (h1 : env.pathExists (d ++ [prec.PREC_KS_FILE]) = false)
    (h2 : parentDir d = some p)
    (h3 : env.pathExists (p ++ [prec.PREC_KS_FILE]) = true) :
    prec.find_prec_ks_file env.pathExists d = some (p ++ [prec.PREC_KS_FILE]) ∧
    prec.collect_prec_demos env d flag =
      prec.collect_after env (p ++ [prec.PREC_KS_FILE]) flag ∧
    (parentDir (p ++ [prec.PREC_KS_FILE])).getD [] = p ∧
    p ≠ d := by
  have hd : d ≠ [] := by
    intro hd0
    rw [hd0] at h2
    simp [parentDir] at h2
  have hp : d.dropLast = p := by
    unfold parentDir at h2
    rw [if_neg hd] at h2
    exact Option.some.inj h2
  have hfind : prec.find_prec_ks_file env.pathExists d =
      some (p ++ [prec.PREC_KS_FILE]) := by
    unfold prec.find_prec_ks_file
    rw [h2]
    simp only [Option.map_some']
    simp [List.filterMap, List.find?, h1, h3]
  refine ⟨hfind, ?_, ?_, ?_⟩
  · unfold prec.collect_prec_demos
    rw [hfind]
  · simp [parentDir]
  · intro hpd
    have h4 : d.length - 1 = d.length := by
      rw [← List.length_dropLast, hp, hpd]
    have h5 : 0 < d.length := List.length_pos.mpr hd
    omega

theorem c6_parent_log_walk_root_witness :
    prec.find_prec_ks_file envParentLogSample.pathExists chosenSample =
      some (parentSample ++ [prec.PREC_KS_FILE]) ∧
    prec.collect_prec_demos envParentLogSample chosenSample false =
      prec.collect_after envParentLogSample (parentSample ++ [prec.PREC_KS_FILE]) false ∧
    (parentDir (parentSample ++ [prec.PREC_KS_FILE])).getD [] = parentSample ∧
    parentSample ≠ chosenSample :=
  c6_parent_log_walk_root envParentLogSample chosenSample parentSample false
    (by decide) (by decide) (by decide)

/-- C7. When the shared log exists neither in the chosen directory nor
in its parent, the shared-log collector emits the user-visible warning,
appends no records, and returns success. -/
theorem c7_missing_log_warns (env : Env) (d : DPath) (flag : Bool)
    (h1 : env.pathExists (d ++ [prec.PREC_KS_FILE]) = false)
    (h2 : env.pathExists (d.dropLast ++ [prec.PREC_KS_FILE]) = false) :
    prec.collect_prec_demos env d flag =
      Except.ok (["Failed to find PREC event log file"], []) := by
  have hfind : prec.find_prec_ks_file env.pathExists d = none := by
    unfold prec.find_prec_ks_file
    by_cases hd : d = []
    · subst hd
      simp only [List.nil_append] at h1
      simp [parentDir, List.filterMap, List.find?, h1]
    · simp [parentDir, hd, List.filterMap, List.find?, h1, h2]
  unfold prec.collect_prec_demos
  rw [hfind]

theorem c7_missing_log_warns_witness :
    prec.collect_prec_demos envNothingSample chosenSample true =
      Except.ok (["Failed to find PREC event log file"], []) :=
  c7_missing_log_warns envNothingSample chosenSample true (by decide) (by decide)

/-- C8. In the sidecar collector, an entry whose sidecar exists but
cannot be read contributes no record, is excluded with the read-failure
diagnostics, and the remaining entries are processed as if it were
absent; whenever the directory listing succeeds the collector returns
success. -/
theorem c8_read_failure_local (env : Env) (dir : DPath) (flag : Bool)
    (e : String) (rest : List String)
    (h1 : util.is_demo (fileExtension e) = true)
    (h2 : env.pathExists (dir ++ [withExtension e jsonExt]) = true)
    (h3 : env.readFile (dir ++ [withExtension e jsonExt]) = none) :
    (ds.process env dir flag (e :: rest)).2 = (ds.process env dir flag rest).2 ∧
    (ds.process env dir flag (e :: rest)).1 =
      "Failed to read events json file" ::
        ("Skipping " ++ e ++ ": failed to read json") ::
          (ds.process env dir flag rest).1 ∧
    (∀ entries, env.readDir dir = some entries →
      ds.collect_ds_demos env dir flag =
        Except.ok (ds.process env dir flag entries)) := by
  refine ⟨?_, ?_, ?_⟩
  · simp [ds.process, h1, h2, h3]
  · simp [ds.process, h1, h2, h3]
  · intro entries he
    unfold ds.collect_ds_demos
    rw [he]

theorem c8_read_failure_local_witness :
    (ds.process envReadFailSample dirSample false (demSample :: [demSample2])).2 =
      (ds.process envReadFailSample dirSample false [demSample2]).2 ∧
    ds.collect_ds_demos envReadFailSample dirSample false =
      Except.ok (ds.process envReadFailSample dirSample false []) := by
  have h := c8_read_failure_local envReadFailSample dirSample false demSample
    [demSample2] (by decide) (by decide) (by decide)
  exact ⟨h.1, h.2.2 [] (by decide)⟩

/-- C9. Every record the sidecar collector appends carries the
`demosupport` source tag and the sidecar path of its demo as
`events_json_path`; every record the shared-log collector appends has no
`events_json_path` and carries the `prec` source tag. -/
theorem c9_record_shape (env : Env) (em : prec.EventMap) (dir : DPath)
    (flag : Bool) (entries : List String) :
    (∀ r ∈ (ds.process env dir flag entries).2,
      r.id = "demosupport" ∧ ∃ name, r.demo_path = dir ++ [name] ∧
        r.events_json_path = some (dir ++ [withExtension name jsonExt])) ∧
    (∀ r ∈ (prec.process em dir flag entries).2,
      r.events_json_path = none ∧ r.id = "prec") :=
  ⟨fun r hr => ds_process_records env dir flag entries r hr,
   fun r hr => prec_process_records em dir flag entries r hr⟩

theorem c9_record_shape_witness :
    ({ inclusion_reason := "no events", demo_path := ["d", "a.dem"],
       events_json_path := some ["d", "a.json"],
       id := "demosupport" } : IncludedDemo).id = "demosupport" ∧
    ∃ name,
      ({ inclusion_reason := "no events", demo_path := ["d", "a.dem"],
         events_json_path := some ["d", "a.json"],
         id := "demosupport" } : IncludedDemo).demo_path = dirSample ++ [name] ∧
      ({ inclusion_reason := "no events", demo_path := ["d", "a.dem"],
         events_json_path := some ["d", "a.json"],
         id := "demosupport" } : IncludedDemo).events_json_path =
        some (dirSample ++ [withExtension name jsonExt]) :=
  (c9_record_shape envOkSample [] dirSample false [demSample]).1
    { inclusion_reason := "no events", demo_path := ["d", "a.dem"],
      events_json_path := some ["d", "a.json"], id := "demosupport" }
    (by decide)

/-- C10. A sidecar whose stripped content yields no event-name captures
and is not the empty-events literal never gets the no-events reason:
with the filter flag off it is excluded as having events, and with the
flag on it is included as having only killstreak events. -/
theorem c10_no_captures_policy (content : String)
    (h1 : ds.event_captures (stripWs content) = [])
    (h2 : stripWs content ≠ ds.EMPTY_EVENTS.data) :
    (∀ flag, (ds.should_include_demo content flag).2 ≠ "no events") ∧
    ds.should_include_demo content false = (false, "has events") ∧
    ds.should_include_demo content true = (true, "has only killstreak events") := by
  have hfalse : ds.should_include_demo content false = (false, "has events") := by
    unfold ds.should_include_demo
    rw [if_neg h2]
    rfl
  have htrue : ds.should_include_demo content true =
      (true, "has only killstreak events") := by
    unfold ds.should_include_demo
    rw [if_neg h2, if_pos rfl, h1]
    rfl
  refine ⟨?_, hfalse, htrue⟩
  intro flag
  cases flag
  · rw [hfalse]
    decide
  · rw [htrue]
    decide

theorem c10_no_captures_policy_witness :
    ds.should_include_demo emptySample false = (false, "has events") ∧
    ds.should_include_demo emptySample true = (true, "has only killstreak events") := by
  have h := c10_no_captures_policy emptySample (by decide) (by decide)
  exact ⟨h.2.1, h.2.2⟩
